import Mathlib

set_option maxRecDepth 8000

/-!
Verification of the audio assembly pipeline of `src/app.py` (pcast).

Modelled here, translated from the source:
* `PodcastGenerator.parse_audio_mime_type` (src/app.py lines 515-536),
* `PodcastGenerator.convert_to_wav` (src/app.py lines 484-513),
* the chunk-collector retry loop and the tail of
  `PodcastGenerator.generate_podcast_audio` (src/app.py lines 331-478).

Elided as irrelevant to the verified properties: progress bars, terminal
colours, file naming and saving, and the Gemini network client.  The
streaming TTS collaborator is abstracted as a schedule of attempts, each
yielding a list of chunks and then either completing normally or raising a
transport error with a message - exactly the observable interface the
collector consumes.  Python `bytes` values are `List Nat` (one entry per
byte); the strings handled character by character by the MIME parser are
`List Char`.
-/

/-! ### Python string primitives used by `parse_audio_mime_type`

`pyStrip` is `str.strip()`, `pySplit` is `str.split(sep)`, `pyLower` is
`str.lower()` (ASCII letters; the inputs at hand are ASCII),
`afterFirst sep` is `s.split(sep, 1)[1]` returning `none` where Python
would raise `IndexError` (no separator present), and `pyInt?` is `int(s)`
returning `none` where Python would raise `ValueError` (whitespace and an
optional sign around a nonempty run of ASCII decimal digits; digit-group
underscores and non-ASCII digits are not modelled - no input in question
uses them). -/

def pyIsSpace (c : Char) : Bool :=
  c = ' ' || c = '\t' || c = '\n' || c = '\r' || c = '\x0b' || c = '\x0c'

def pyStrip (cs : List Char) : List Char :=
  ((cs.dropWhile pyIsSpace).reverse.dropWhile pyIsSpace).reverse

def pySplit (sep : Char) : List Char → List (List Char)
  | [] => [[]]
  | c :: cs =>
      if c = sep then [] :: pySplit sep cs
      else
        match pySplit sep cs with
        | [] => [[c]]
        | h :: t => (c :: h) :: t

def pyToLower (c : Char) : Char :=
  if 65 ≤ c.toNat ∧ c.toNat ≤ 90 then Char.ofNat (c.toNat + 32) else c

def pyLower (cs : List Char) : List Char :=
  cs.map pyToLower

def afterFirst (sep : Char) : List Char → Option (List Char)
  | [] => none
  | c :: cs => if c = sep then some cs else afterFirst sep cs

def decDigitsAux : List Char → Nat → Option Nat
  | [], acc => some acc
  | c :: cs, acc =>
      if 48 ≤ c.toNat ∧ c.toNat ≤ 57 then decDigitsAux cs (acc * 10 + (c.toNat - 48))
      else none

def decDigits? : List Char → Option Nat
  | [] => none
  | cs => decDigitsAux cs 0

def pyInt? (cs : List Char) : Option Int :=
  match pyStrip cs with
  | [] => none
  | '+' :: rest => (decDigits? rest).map (fun n => (n : Int))
  | '-' :: rest => (decDigits? rest).map (fun n => -(n : Int))
  | ds => (decDigits? ds).map (fun n => (n : Int))

/-! ### `parse_audio_mime_type` (src/app.py lines 515-536) -/

/-- The dictionary `{"bits_per_sample": ..., "rate": ...}` returned by
`parse_audio_mime_type`.  Python integers are unbounded, hence `Int`. -/
structure AudioParams where
  bits_per_sample : Int
  rate : Int
deriving DecidableEq, Repr

/-- The body of the `for param in parts` loop of `parse_audio_mime_type`
applied to one already-split segment: strip it, then
`if param.lower().startswith("rate="): try rate = int(param.split("=", 1)[1])`,
`elif param.startswith("audio/L"): try bits_per_sample = int(param.split("L", 1)[1])`,
with `except (ValueError, IndexError): pass` rendered by the `Option.bind`
falling back to the unchanged state. -/
def parseSegment (st : AudioParams) (param0 : List Char) : AudioParams :=
  let param := pyStrip param0
  if List.isPrefixOf ['r', 'a', 't', 'e', '='] (pyLower param) then
    match (afterFirst '=' param).bind pyInt? with
    | some r => { st with rate := r }
    | none => st
  else if List.isPrefixOf ['a', 'u', 'd', 'i', 'o', '/', 'L'] param then
    match (afterFirst 'L' param).bind pyInt? with
    | some b => { st with bits_per_sample := b }
    | none => st
  else st

/-- `PodcastGenerator.parse_audio_mime_type` (src/app.py lines 515-536):
defaults `bits_per_sample = 16`, `rate = 24000`, then one pass over the
semicolon-separated segments. -/
def parse_audio_mime_type (mime_type : String) : AudioParams :=
  (pySplit ';' mime_type.toList).foldl parseSegment ⟨16, 24000⟩

/-! ### `convert_to_wav` (src/app.py lines 484-513) -/

/-- Little-endian bytes of a `uint16` value, as `struct.pack "<H"` lays them
out. -/
def le16 (m : Nat) : List Nat :=
  [m % 256, m / 256 % 256]

/-- Little-endian bytes of a `uint32` value, as `struct.pack "<I"` lays them
out. -/
def le32 (m : Nat) : List Nat :=
  [m % 256, m / 256 % 256, m / 65536 % 256, m / 16777216 % 256]

/-- `struct.pack "<H"` on one value: `struct.error` (out of `uint16` range)
becomes `none`. -/
def packU16? (n : Int) : Option (List Nat) :=
  if 0 ≤ n ∧ n < 65536 then some (le16 n.toNat) else none

/-- `struct.pack "<I"` on one value: `struct.error` (out of `uint32` range)
becomes `none`. -/
def packU32? (n : Int) : Option (List Nat) :=
  if 0 ≤ n ∧ n < 4294967296 then some (le32 n.toNat) else none

/-- `PodcastGenerator.convert_to_wav` (src/app.py lines 484-513).  The
header is `struct.pack("<4sI4s4sIHHIIHH4sI", b"RIFF", chunk_size, b"WAVE",
b"fmt ", 16, 1, num_channels, sample_rate, byte_rate, block_align,
bits_per_sample, b"data", data_size)`; a `struct.error` on any field (value
out of its unsigned range) is `none`.  Python `//` is floor division, hence
`Int.fdiv`. -/
def convert_to_wav (audio_data : List Nat) (mime_type : String) : Option (List Nat) :=
  let parameters := parse_audio_mime_type mime_type
  let bits_per_sample := parameters.bits_per_sample
  let sample_rate := parameters.rate
  let num_channels : Int := 1
  let data_size : Int := (audio_data.length : Int)
  let bytes_per_sample := Int.fdiv bits_per_sample 8
  let block_align := num_channels * bytes_per_sample
  let byte_rate := sample_rate * block_align
  let chunk_size := 36 + data_size
  (packU32? chunk_size).bind fun chunkB =>
  (packU32? 16).bind fun fmtSizeB =>
  (packU16? 1).bind fun fmtTagB =>
  (packU16? num_channels).bind fun channelsB =>
  (packU32? sample_rate).bind fun rateB =>
  (packU32? byte_rate).bind fun byteRateB =>
  (packU16? block_align).bind fun blockAlignB =>
  (packU16? bits_per_sample).bind fun bitsB =>
  (packU32? data_size).bind fun dataSizeB =>
  some ([82, 73, 70, 70] ++ chunkB ++ [87, 65, 86, 69] ++ [102, 109, 116, 32] ++
    fmtSizeB ++ fmtTagB ++ channelsB ++ rateB ++ byteRateB ++ blockAlignB ++ bitsB ++
    [100, 97, 116, 97] ++ dataSizeB ++ audio_data)

/-- Read back a little-endian `uint16` at byte offset `off` of a buffer
(out-of-range bytes read as 0). -/
def readU16 (buf : List Nat) (off : Nat) : Nat :=
  buf.getD off 0 + 256 * buf.getD (off + 1) 0

/-- Read back a little-endian `uint32` at byte offset `off` of a buffer
(out-of-range bytes read as 0). -/
def readU32 (buf : List Nat) (off : Nat) : Nat :=
  buf.getD off 0 + 256 * buf.getD (off + 1) 0 + 65536 * buf.getD (off + 2) 0 +
    16777216 * buf.getD (off + 3) 0

/-! ### The chunk collector of `generate_podcast_audio` (src/app.py lines 331-478)

The streaming call `self.client.models.generate_content_stream(...)` is the
external TTS collaborator.  One *attempt* at it yields a list of stream
chunks and then either finishes normally or raises a transport error with a
message (`str(e)`); chunks already yielded before the error were already
processed by the loop body.  A chunk whose `candidates`, `content` or
`parts` is `None`, or whose `parts[0].inline_data` is falsy, leaves the
collector state unchanged (the `continue` / diagnostic-text `else` branch),
so a stream chunk is modelled as `Option InlineData`. -/

/-- `inline_data` of a payload-bearing chunk: its `data` bytes and its
`mime_type`, which may itself be `None`. -/
structure InlineData where
  data : List Nat
  mime_type : Option String
deriving DecidableEq, Repr

/-- One element of the stream: `none` for a chunk the loop body skips,
`some d` for a payload-bearing chunk. -/
abbrev StreamChunk := Option InlineData

/-- The collector's mutable state: `all_audio_chunks` (initialised to `[]`
at src/app.py line 332, before the retry loop) and `mime_type` (initialised
to `None` at line 333). -/
structure CollectState where
  all_audio_chunks : List (List Nat)
  mime_type : Option String
deriving DecidableEq, Repr

/-- The body of `for chunk in self.client.models.generate_content_stream(...)`
(src/app.py lines 365-394): append `inline_data.data` to `all_audio_chunks`
and record `inline_data.mime_type` only `if mime_type is None`. -/
def processChunk (st : CollectState) (chunk : StreamChunk) : CollectState :=
  match chunk with
  | none => st
  | some d =>
      { all_audio_chunks := st.all_audio_chunks ++ [d.data],
        mime_type :=
          match st.mime_type with
          | none => d.mime_type
          | some m => some m }

/-- The behaviour of one streaming attempt: the chunks the stream yields, in
order, and `some msg` when it then raises a transport error whose `str(e)`
is `msg` (`none`: the stream completes normally). -/
structure Attempt where
  chunks : List StreamChunk
  err : Option String
deriving DecidableEq, Repr

/-- `MAX_RETRIES` (src/app.py line 33). -/
def MAX_RETRIES : Nat := 3

/-- `RETRY_DELAY` (src/app.py line 34), in seconds. -/
def RETRY_DELAY : Nat := 2

/-- Running one attempt: the `for chunk in ...` loop folds every yielded
chunk into the state, then the attempt reports its transport error, if
any. -/
def runAttempt (st : CollectState) (a : Attempt) : CollectState × Option String :=
  (a.chunks.foldl processChunk st, a.err)

/-- What the retry loop is observed to do: the final collector state, how
many attempts were started, the sleeps (`time.sleep(RETRY_DELAY)`, in
seconds) between consecutive attempts, and `some wrappedMsg` when the loop
ended in `raise Exception(...)` at the last attempt. -/
structure LoopResult where
  state : CollectState
  attemptsMade : Nat
  delays : List Nat
  failure : Option String
deriving DecidableEq, Repr

/-- `for attempt in range(MAX_RETRIES): try: ... break except Exception as e: ...`
(src/app.py lines 336-411).  `behaviors n` is what the streaming
collaborator does on attempt number `n` (0-based).  On success the loop
`break`s; on error it sleeps and retries while `attempt < MAX_RETRIES - 1`,
else raises `Exception(f"Failed to generate audio after {MAX_RETRIES}
attempts: {error_message}")`.  The fuel equals the number of loop
iterations still available; the collector state is NOT reset between
attempts, exactly as in the source, where `all_audio_chunks` and
`mime_type` are initialised once, before the loop. -/
def runLoopAux (behaviors : Nat → Attempt) : Nat → Nat → CollectState → List Nat → LoopResult
  | 0, attempt, st, delays => ⟨st, attempt, delays, none⟩
  | fuel + 1, attempt, st, delays =>
      let r := runAttempt st (behaviors attempt)
      match r.2 with
      | none => ⟨r.1, attempt + 1, delays, none⟩
      | some msg =>
          if attempt < MAX_RETRIES - 1 then
            runLoopAux behaviors fuel (attempt + 1) r.1 (delays ++ [RETRY_DELAY])
          else
            ⟨r.1, attempt + 1, delays,
              some ("Failed to generate audio after " ++ toString MAX_RETRIES ++
                " attempts: " ++ msg)⟩

/-- The whole retry loop, from attempt 0 and the initial state. -/
def runLoop (behaviors : Nat → Attempt) : LoopResult :=
  runLoopAux behaviors MAX_RETRIES 0 ⟨[], none⟩ []

/-- `combined_audio = b''` then `combined_audio += chunk` over
`all_audio_chunks` (src/app.py lines 426-428). -/
def combineChunks (chunks : List (List Nat)) : List Nat :=
  chunks.foldl (fun acc c => acc ++ c) []

/-- The failures `generate_podcast_audio` can raise after the retry loop is
entered: the wrapped transport failure of the last attempt (line 411), the
empty-stream failure (line 416), and a `struct.error` escaping
`convert_to_wav` (line 497). -/
inductive GenError where
  | generationFailed (msg : String)
  | emptyAudio (msg : String)
  | packError
deriving DecidableEq, Repr

deriving instance DecidableEq for Except

/-- The observable outcome of `generate_podcast_audio`: either an error or
the final audio bytes with the chosen file extension, plus whether
`convert_to_wav` was invoked, and the loop observations. -/
structure GenOutcome where
  result : Except GenError (List Nat × String)
  encoderInvoked : Bool
  attemptsMade : Nat
  delays : List Nat
deriving DecidableEq, Repr

/-- `file_extension = mimetypes.guess_extension(mime_type) if mime_type
else None` (src/app.py line 442): the library lookup is the abstract
collaborator `guessExt`; Python truthiness makes both `None` and `""`
bypass it. -/
def pickExtension (guessExt : String → Option String) : Option String → Option String
  | some m => if m = "" then none else guessExt m
  | none => none

/-- `mime_type or "audio/L16;rate=24000"` (src/app.py line 463): Python
`or` replaces a falsy value (`None` or `""`) by the default. -/
def effectiveMime : Option String → String
  | some m => if m = "" then "audio/L16;rate=24000" else m
  | none => "audio/L16;rate=24000"

/-- The tail of `generate_podcast_audio` once the retry loop has ended
without raising (src/app.py lines 415-472): raise if no chunks were
collected, else concatenate the chunks and either keep them raw (a file
extension is known for the recorded MIME type) or fall back to `".wav"`
and WAV-encode.  File saving is elided. -/
def finishSuccess (guessExt : String → Option String) (st : CollectState)
    (att : Nat) (del : List Nat) : GenOutcome :=
  if st.all_audio_chunks = [] then
    ⟨.error (.emptyAudio "No audio was generated. Please try again with a different topic."),
      false, att, del⟩
  else
    match pickExtension guessExt st.mime_type with
    | some e => ⟨.ok (combineChunks st.all_audio_chunks, e), false, att, del⟩
    | none =>
        match convert_to_wav (combineChunks st.all_audio_chunks)
            (effectiveMime st.mime_type) with
        | some wav => ⟨.ok (wav, ".wav"), true, att, del⟩
        | none => ⟨.error .packError, true, att, del⟩

/-- The tail of `generate_podcast_audio` after the retry loop (src/app.py
lines 413-478): a loop that ended in `raise` propagates that failure,
otherwise the collected state is assembled by `finishSuccess`. -/
def finishGeneration (guessExt : String → Option String) (lr : LoopResult) : GenOutcome :=
  match lr.failure with
  | some msg => ⟨.error (.generationFailed msg), false, lr.attemptsMade, lr.delays⟩
  | none => finishSuccess guessExt lr.state lr.attemptsMade lr.delays

/-- `PodcastGenerator.generate_podcast_audio` (src/app.py lines 260-478),
reduced to its audio pipeline: run the retry loop against the streaming
collaborator's behaviour, then assemble and encode. -/
def generate_podcast_audio (guessExt : String → Option String)
    (behaviors : Nat → Attempt) : GenOutcome :=
  finishGeneration guessExt (runLoop behaviors)

/-! ### Claim-side definitions

These do not model source code; they restate parts of the specification's
words, to be compared with the source-modelled functions above. -/

/-- The WAV buffer layout the specification describes: 44 header bytes -
`"RIFF"`, riffChunkSize = 36 + dataSize (uint32 LE), `"WAVE"`, `"fmt "`,
16 (uint32), audio format 1 (uint16), channels 1 (uint16), sample rate
(uint32), byte rate (uint32), block align (uint16), bits per sample
(uint16), `"data"`, dataSize (uint32) - then the payload. -/
def wavBytes (bits rate : Int) (payload : List Nat) : List Nat :=
  let cs := 36 + payload.length
  let r := rate.toNat
  let br := (rate * Int.fdiv bits 8).toNat
  let ba := (Int.fdiv bits 8).toNat
  let b := bits.toNat
  let ds := payload.length
  82 :: 73 :: 70 :: 70 ::
  (cs % 256) :: (cs / 256 % 256) :: (cs / 65536 % 256) :: (cs / 16777216 % 256) ::
  87 :: 65 :: 86 :: 69 ::
  102 :: 109 :: 116 :: 32 ::
  16 :: 0 :: 0 :: 0 ::
  1 :: 0 ::
  1 :: 0 ::
  (r % 256) :: (r / 256 % 256) :: (r / 65536 % 256) :: (r / 16777216 % 256) ::
  (br % 256) :: (br / 256 % 256) :: (br / 65536 % 256) :: (br / 16777216 % 256) ::
  (ba % 256) :: (ba / 256 % 256) ::
  (b % 256) :: (b / 256 % 256) ::
  100 :: 97 :: 116 :: 97 ::
  (ds % 256) :: (ds / 256 % 256) :: (ds / 65536 % 256) :: (ds / 16777216 % 256) ::
  payload

/-- The MIME type of the first payload-bearing chunk that carried one, as
the specification words it. -/
def firstCarriedMime (chunks : List StreamChunk) : Option String :=
  (chunks.filterMap (fun c => c.bind InlineData.mime_type)).head?

/-- The specification's reading of an `audio/L<bits>` segment: a segment
that starts with the literal characters `audio/L` overrides
`bits_per_sample` when the substring after `L` parses as an integer. -/
def audioRefine (st : AudioParams) (seg : List Char) : AudioParams :=
  match seg with
  | 'a' :: 'u' :: 'd' :: 'i' :: 'o' :: '/' :: 'L' :: rest =>
      (match pyInt? rest with
        | some b => { st with bits_per_sample := b }
        | none => st)
  | _ => st

/-- The specification's reading of one trimmed segment: a segment of the
form `<key>=<value>` whose four key characters spell `rate` in either case
overrides `rate` when `<value>` parses as an integer and is skipped
otherwise; else the `audio/L` rule; anything else is ignored. -/
def specSegment (st : AudioParams) (raw : List Char) : AudioParams :=
  match pyStrip raw with
  | c1 :: c2 :: c3 :: c4 :: '=' :: v =>
      if (c1 = 'r' ∨ c1 = 'R') ∧ (c2 = 'a' ∨ c2 = 'A') ∧
          (c3 = 't' ∨ c3 = 'T') ∧ (c4 = 'e' ∨ c4 = 'E') then
        (match pyInt? v with
          | some r => { st with rate := r }
          | none => st)
      else audioRefine st (pyStrip raw)
  | seg => audioRefine st seg

/-! ### Concrete streaming behaviours used by individual claims -/

/-- Failing input for the buffer-discard claim: attempt 0 yields one
payload chunk `b"\x01"` (with a MIME type) and then raises; attempt 1
yields `b"\x02"` and completes normally. -/
def behCarryOver : Nat → Attempt
  | 0 => ⟨[some ⟨[1], some "audio/L16;rate=24000"⟩], some "boom"⟩
  | _ => ⟨[some ⟨[2], none⟩], none⟩

/-- A collaborator whose first attempt raises and whose second attempt
completes while yielding no payload-bearing chunks at all. -/
def behEmpty : Nat → Attempt
  | 0 => ⟨[none], some "transient"⟩
  | _ => ⟨[none, none], none⟩

/-- A collaborator that raises a transport error on every attempt. -/
def behAlwaysFail : Nat → Attempt
  | _ => ⟨[], some "boom"⟩

/-! ## Helper lemmas on the WAV encoder -/

theorem packU16?_pos {n : Int} (h0 : 0 ≤ n) (h1 : n < 65536) :
    packU16? n = some (le16 n.toNat) := by
  simp [packU16?, h0, h1]

theorem packU32?_pos {n : Int} (h0 : 0 ≤ n) (h1 : n < 4294967296) :
    packU32? n = some (le32 n.toNat) := by
  simp [packU32?, h0, h1]

theorem packU16?_some {n : Int} {b : List Nat} (h : packU16? n = some b) :
    b = le16 n.toNat ∧ 0 ≤ n ∧ n < 65536 := by
  unfold packU16? at h
  split at h
  · next hc => exact ⟨(Option.some.inj h).symm, hc.1, hc.2⟩
  · cases h

theorem packU32?_some {n : Int} {b : List Nat} (h : packU32? n = some b) :
    b = le32 n.toNat ∧ 0 ≤ n ∧ n < 4294967296 := by
  unfold packU32? at h
  split at h
  · next hc => exact ⟨(Option.some.inj h).symm, hc.1, hc.2⟩
  · cases h

theorem convert_to_wav_eq_some {payload : List Nat} {mime : String} {bits rate : Int}
    (hparse : parse_audio_mime_type mime = ⟨bits, rate⟩)
    (hb0 : 0 ≤ bits) (hb1 : bits < 65536)
    (hr0 : 0 ≤ rate) (hr1 : rate < 4294967296)
    (hbr : rate * Int.fdiv bits 8 < 4294967296)
    (hlen : 36 + (payload.length : Int) < 4294967296) :
    convert_to_wav payload mime = some (wavBytes bits rate payload) := by
  have hfd : Int.fdiv bits 8 = bits / 8 := Int.fdiv_eq_ediv _ (by norm_num)
  have hba0 : 0 ≤ Int.fdiv bits 8 := by rw [hfd]; omega
  have hba1 : Int.fdiv bits 8 < 65536 := by rw [hfd]; omega
  have hbr0 : 0 ≤ rate * Int.fdiv bits 8 := mul_nonneg hr0 hba0
  have hcs0 : (0 : Int) ≤ 36 + (payload.length : Int) := by positivity
  have h1 : packU32? (36 + (payload.length : Int)) = some (le32 (36 + payload.length)) := by
    have e : (36 + (payload.length : Int)).toNat = 36 + payload.length := by omega
    rw [packU32?_pos hcs0 hlen, e]
  have h5 : packU32? rate = some (le32 rate.toNat) := packU32?_pos hr0 hr1
  have h6 : packU32? (rate * Int.fdiv bits 8) = some (le32 (rate * Int.fdiv bits 8).toNat) :=
    packU32?_pos hbr0 hbr
  have h7 : packU16? (Int.fdiv bits 8) = some (le16 (Int.fdiv bits 8).toNat) :=
    packU16?_pos hba0 hba1
  have h8 : packU16? bits = some (le16 bits.toNat) := packU16?_pos hb0 hb1
  have h9 : packU32? ((payload.length : Int)) = some (le32 payload.length) := by
    have e : ((payload.length : Int)).toNat = payload.length := by omega
    rw [packU32?_pos (by positivity) (by omega), e]
  have h2 : packU32? 16 = some (le32 16) := by decide
  have h3 : packU16? 1 = some (le16 1) := by decide
  simp only [convert_to_wav, hparse, one_mul, h1, h2, h3, h5, h6, h7, h8, h9,
    Option.some_bind]
  simp [wavBytes, le32, le16]

theorem convert_to_wav_some_shape {p : List Nat} {m : String} {buf : List Nat}
    (h : convert_to_wav p m = some buf) :
    buf.length = 44 + p.length ∧ buf.drop 44 = p := by
  simp only [convert_to_wav, Option.bind_eq_some] at h
  obtain ⟨b1, e1, b2, e2, b3, e3, b4, e4, b5, e5, b6, e6, b7, e7, b8, e8, b9, e9, h⟩ := h
  obtain rfl := (packU32?_some e1).1
  obtain rfl := (packU32?_some e2).1
  obtain rfl := (packU16?_some e3).1
  obtain rfl := (packU16?_some e4).1
  obtain rfl := (packU32?_some e5).1
  obtain rfl := (packU32?_some e6).1
  obtain rfl := (packU16?_some e7).1
  obtain rfl := (packU16?_some e8).1
  obtain rfl := (packU32?_some e9).1
  obtain rfl := Option.some.inj h
  constructor
  · simp [le32, le16]
    omega
  · rfl

theorem convert_to_wav_isSome_iff {mime : String} {bits rate : Int}
    (hparse : parse_audio_mime_type mime = ⟨bits, rate⟩) (p : List Nat) :
    (convert_to_wav p mime).isSome ↔
      (0 ≤ bits ∧ bits < 65536 ∧
       0 ≤ Int.fdiv bits 8 ∧ Int.fdiv bits 8 < 65536 ∧
       0 ≤ rate ∧ rate < 4294967296 ∧
       0 ≤ rate * Int.fdiv bits 8 ∧ rate * Int.fdiv bits 8 < 4294967296 ∧
       36 + (p.length : Int) < 4294967296) := by
  constructor
  · intro hs
    obtain ⟨buf, h⟩ := Option.isSome_iff_exists.mp hs
    simp only [convert_to_wav, hparse, Option.bind_eq_some] at h
    obtain ⟨b1, e1, b2, e2, b3, e3, b4, e4, b5, e5, b6, e6, b7, e7, b8, e8, b9, e9, h⟩ := h
    have c1 := (packU32?_some e1).2
    have c5 := (packU32?_some e5).2
    have c6 := (packU32?_some e6).2
    have c7 := (packU16?_some e7).2
    have c8 := (packU16?_some e8).2
    simp only [one_mul] at c6 c7
    exact ⟨c8.1, c8.2, c7.1, c7.2, c5.1, c5.2, c6.1, c6.2, c1.2⟩
  · rintro ⟨hb0, hb1, _, _, hr0, hr1, _, hbr1, hlen⟩
    rw [convert_to_wav_eq_some hparse hb0 hb1 hr0 hr1 hbr1 hlen]
    rfl

/-! ### Reading the header fields back out of the produced buffer -/

theorem wavBytes_read_riff (bits rate : Int) (p : List Nat) :
    (wavBytes bits rate p).take 4 = [82, 73, 70, 70] := rfl

theorem wavBytes_read_wave (bits rate : Int) (p : List Nat) :
    ((wavBytes bits rate p).drop 8).take 4 = [87, 65, 86, 69] := rfl

theorem wavBytes_read_fmt (bits rate : Int) (p : List Nat) :
    ((wavBytes bits rate p).drop 12).take 4 = [102, 109, 116, 32] := rfl

theorem wavBytes_read_dataTag (bits rate : Int) (p : List Nat) :
    ((wavBytes bits rate p).drop 36).take 4 = [100, 97, 116, 97] := rfl

theorem wavBytes_readU32_fmtSize (bits rate : Int) (p : List Nat) :
    readU32 (wavBytes bits rate p) 16 = 16 := rfl

theorem wavBytes_readU16_fmtTag (bits rate : Int) (p : List Nat) :
    readU16 (wavBytes bits rate p) 20 = 1 := rfl

theorem wavBytes_readU16_channels (bits rate : Int) (p : List Nat) :
    readU16 (wavBytes bits rate p) 22 = 1 := rfl

theorem wavBytes_readU32_chunkSize (bits rate : Int) (p : List Nat)
    (h : 36 + p.length < 4294967296) :
    readU32 (wavBytes bits rate p) 4 = 36 + p.length := by
  have e : readU32 (wavBytes bits rate p) 4 =
      (36 + p.length) % 256 + 256 * ((36 + p.length) / 256 % 256) +
      65536 * ((36 + p.length) / 65536 % 256) +
      16777216 * ((36 + p.length) / 16777216 % 256) := rfl
  omega

theorem wavBytes_readU32_rate (bits rate : Int) (p : List Nat)
    (h : rate.toNat < 4294967296) :
    readU32 (wavBytes bits rate p) 24 = rate.toNat := by
  have e : readU32 (wavBytes bits rate p) 24 =
      rate.toNat % 256 + 256 * (rate.toNat / 256 % 256) +
      65536 * (rate.toNat / 65536 % 256) + 16777216 * (rate.toNat / 16777216 % 256) := rfl
  omega

theorem wavBytes_readU32_byteRate (bits rate : Int) (p : List Nat)
    (h : (rate * Int.fdiv bits 8).toNat < 4294967296) :
    readU32 (wavBytes bits rate p) 28 = (rate * Int.fdiv bits 8).toNat := by
  have e : readU32 (wavBytes bits rate p) 28 =
      (rate * Int.fdiv bits 8).toNat % 256 +
      256 * ((rate * Int.fdiv bits 8).toNat / 256 % 256) +
      65536 * ((rate * Int.fdiv bits 8).toNat / 65536 % 256) +
      16777216 * ((rate * Int.fdiv bits 8).toNat / 16777216 % 256) := rfl
  omega

theorem wavBytes_readU16_blockAlign (bits rate : Int) (p : List Nat)
    (h : (Int.fdiv bits 8).toNat < 65536) :
    readU16 (wavBytes bits rate p) 32 = (Int.fdiv bits 8).toNat := by
  have e : readU16 (wavBytes bits rate p) 32 =
      (Int.fdiv bits 8).toNat % 256 + 256 * ((Int.fdiv bits 8).toNat / 256 % 256) := rfl
  omega

theorem wavBytes_readU16_bits (bits rate : Int) (p : List Nat)
    (h : bits.toNat < 65536) :
    readU16 (wavBytes bits rate p) 34 = bits.toNat := by
  have e : readU16 (wavBytes bits rate p) 34 =
      bits.toNat % 256 + 256 * (bits.toNat / 256 % 256) := rfl
  omega

theorem wavBytes_readU32_dataSize (bits rate : Int) (p : List Nat)
    (h : p.length < 4294967296) :
    readU32 (wavBytes bits rate p) 40 = p.length := by
  have e : readU32 (wavBytes bits rate p) 40 =
      p.length % 256 + 256 * (p.length / 256 % 256) +
      65536 * (p.length / 65536 % 256) + 16777216 * (p.length / 16777216 % 256) := rfl
  omega

/-! ## Helper lemmas on the chunk collector -/

theorem processChunk_mime_some {st : CollectState} {c : StreamChunk} {m : String}
    (h : st.mime_type = some m) : (processChunk st c).mime_type = some m := by
  cases c <;> simp [processChunk, h]

theorem foldl_processChunk_mime_some {m : String} :
    ∀ (chunks : List StreamChunk) (st : CollectState), st.mime_type = some m →
      (chunks.foldl processChunk st).mime_type = some m
  | [], _, h => h
  | _ :: t, _, h => foldl_processChunk_mime_some t _ (processChunk_mime_some h)

theorem foldl_processChunk_mime_none :
    ∀ (chunks : List StreamChunk) (l : List (List Nat)),
      (chunks.foldl processChunk ⟨l, none⟩).mime_type = firstCarriedMime chunks
  | [], _ => rfl
  | none :: t, l => by
      simpa [firstCarriedMime, processChunk] using foldl_processChunk_mime_none t l
  | some d :: t, l => by
      rcases hd : d.mime_type with _ | m
      · have ih := foldl_processChunk_mime_none t (l ++ [d.data])
        simpa [firstCarriedMime, processChunk, hd] using ih
      · have hs := foldl_processChunk_mime_some t
          (⟨l ++ [d.data], some m⟩ : CollectState) rfl
        simpa [firstCarriedMime, processChunk, hd] using hs

theorem foldl_append_eq (l : List (List Nat)) (acc : List Nat) :
    l.foldl (fun a c => a ++ c) acc = acc ++ l.flatten := by
  induction l generalizing acc with
  | nil => simp
  | cons h t ih => simp [ih, List.append_assoc]

theorem combineChunks_eq_flatten (l : List (List Nat)) : combineChunks l = l.flatten := by
  simpa using foldl_append_eq l []

/-! ## Helper lemmas on the retry loop -/

theorem runLoopAux_ok {behaviors : Nat → Attempt} {fuel attempt : Nat} {st : CollectState}
    {delays : List Nat} (h : (behaviors attempt).err = none) :
    runLoopAux behaviors (fuel + 1) attempt st delays =
      ⟨(behaviors attempt).chunks.foldl processChunk st, attempt + 1, delays, none⟩ := by
  simp [runLoopAux, runAttempt, h]

theorem runLoopAux_err {behaviors : Nat → Attempt} {fuel attempt : Nat} {st : CollectState}
    {delays : List Nat} {msg : String}
    (h : (behaviors attempt).err = some msg) (hlt : attempt < MAX_RETRIES - 1) :
    runLoopAux behaviors (fuel + 1) attempt st delays =
      runLoopAux behaviors fuel (attempt + 1)
        ((behaviors attempt).chunks.foldl processChunk st) (delays ++ [RETRY_DELAY]) := by
  simp [runLoopAux, runAttempt, h, hlt]

theorem runLoopAux_err_last {behaviors : Nat → Attempt} {fuel attempt : Nat} {st : CollectState}
    {delays : List Nat} {msg : String}
    (h : (behaviors attempt).err = some msg) (hge : ¬ attempt < MAX_RETRIES - 1) :
    runLoopAux behaviors (fuel + 1) attempt st delays =
      ⟨(behaviors attempt).chunks.foldl processChunk st, attempt + 1, delays,
        some ("Failed to generate audio after " ++ toString MAX_RETRIES ++
          " attempts: " ++ msg)⟩ := by
  simp [runLoopAux, runAttempt, h, hge]

theorem finishGeneration_ok {guessExt : String → Option String} {lr : LoopResult}
    (hf : lr.failure = none) :
    finishGeneration guessExt lr = finishSuccess guessExt lr.state lr.attemptsMade lr.delays := by
  unfold finishGeneration
  rw [hf]

theorem finishGeneration_failed {guessExt : String → Option String} {lr : LoopResult}
    {msg : String} (hf : lr.failure = some msg) :
    finishGeneration guessExt lr =
      ⟨.error (.generationFailed msg), false, lr.attemptsMade, lr.delays⟩ := by
  unfold finishGeneration
  rw [hf]

theorem finishSuccess_no_chunks {guessExt : String → Option String} {st : CollectState}
    {att : Nat} {del : List Nat} (hemp : st.all_audio_chunks = []) :
    finishSuccess guessExt st att del =
      ⟨.error (.emptyAudio "No audio was generated. Please try again with a different topic."),
        false, att, del⟩ := by
  unfold finishSuccess
  rw [if_pos hemp]

theorem finishSuccess_known_ext {guessExt : String → Option String} {st : CollectState}
    {att : Nat} {del : List Nat} {e : String}
    (hne : st.all_audio_chunks ≠ []) (hpe : pickExtension guessExt st.mime_type = some e) :
    finishSuccess guessExt st att del =
      ⟨.ok (combineChunks st.all_audio_chunks, e), false, att, del⟩ := by
  unfold finishSuccess
  rw [if_neg hne, hpe]

theorem finishSuccess_encode_ok {guessExt : String → Option String} {st : CollectState}
    {att : Nat} {del : List Nat} {wav : List Nat}
    (hne : st.all_audio_chunks ≠ []) (hpe : pickExtension guessExt st.mime_type = none)
    (hw : convert_to_wav (combineChunks st.all_audio_chunks) (effectiveMime st.mime_type) =
      some wav) :
    finishSuccess guessExt st att del = ⟨.ok (wav, ".wav"), true, att, del⟩ := by
  unfold finishSuccess
  rw [if_neg hne, hpe, hw]

theorem finishSuccess_encode_failed {guessExt : String → Option String} {st : CollectState}
    {att : Nat} {del : List Nat}
    (hne : st.all_audio_chunks ≠ []) (hpe : pickExtension guessExt st.mime_type = none)
    (hw : convert_to_wav (combineChunks st.all_audio_chunks) (effectiveMime st.mime_type) =
      none) :
    finishSuccess guessExt st att del = ⟨.error .packError, true, att, del⟩ := by
  unfold finishSuccess
  rw [if_neg hne, hpe, hw]

theorem finishGeneration_empty {guessExt : String → Option String} {lr : LoopResult}
    (hf : lr.failure = none) (hemp : lr.state.all_audio_chunks = []) :
    (finishGeneration guessExt lr).result =
      .error (.emptyAudio "No audio was generated. Please try again with a different topic.") ∧
    (finishGeneration guessExt lr).encoderInvoked = false := by
  rw [finishGeneration_ok hf, finishSuccess_no_chunks hemp]
  exact ⟨rfl, rfl⟩

/-! ## Helper lemmas on the MIME parser -/

theorem char_toNat_inj {a b : Char} (h : a.toNat = b.toNat) : a = b :=
  Char.eq_of_val_eq (UInt32.ext h)

theorem char_toNat_ofNat {n : Nat} (h : n < 55296) : (Char.ofNat n).toNat = n := by
  unfold Char.ofNat
  rw [dif_pos (Or.inl h)]
  rfl

theorem pyToLower_eq_letter {lo up : Char} (c : Char)
    (hlo : lo.toNat = up.toNat + 32) (h1 : 65 ≤ up.toNat) (h2 : up.toNat ≤ 90) :
    (pyToLower c = lo) ↔ (c = lo ∨ c = up) := by
  unfold pyToLower
  by_cases h : 65 ≤ c.toNat ∧ c.toNat ≤ 90
  · rw [if_pos h]
    constructor
    · intro he
      have := congrArg Char.toNat he
      rw [char_toNat_ofNat (by omega)] at this
      exact Or.inr (char_toNat_inj (by omega))
    · rintro (rfl | rfl)
      · omega
      · apply char_toNat_inj
        rw [char_toNat_ofNat (by omega)]
        omega
  · rw [if_neg h]
    constructor
    · rintro rfl
      exact Or.inl rfl
    · rintro (rfl | rfl)
      · rfl
      · omega

theorem pyToLower_eq_nonletter {t : Char} (c : Char)
    (h1 : ¬ (97 ≤ t.toNat ∧ t.toNat ≤ 122)) (h2 : ¬ (65 ≤ t.toNat ∧ t.toNat ≤ 90)) :
    (pyToLower c = t) ↔ c = t := by
  unfold pyToLower
  by_cases h : 65 ≤ c.toNat ∧ c.toNat ≤ 90
  · rw [if_pos h]
    constructor
    · intro he
      have := congrArg Char.toNat he
      rw [char_toNat_ofNat (by omega)] at this
      omega
    · rintro rfl
      omega
  · rw [if_neg h]

theorem rate_key_iff (c1 c2 c3 c4 : Char) (v : List Char) :
    (List.isPrefixOf ['r', 'a', 't', 'e', '=']
        (pyLower (c1 :: c2 :: c3 :: c4 :: '=' :: v)) = true) ↔
    ((c1 = 'r' ∨ c1 = 'R') ∧ (c2 = 'a' ∨ c2 = 'A') ∧
     (c3 = 't' ∨ c3 = 'T') ∧ (c4 = 'e' ∨ c4 = 'E')) := by
  have e : pyLower (c1 :: c2 :: c3 :: c4 :: '=' :: v) =
      pyToLower c1 :: pyToLower c2 :: pyToLower c3 :: pyToLower c4 ::
        pyToLower '=' :: pyLower v := rfl
  rw [e]
  simp only [List.isPrefixOf, Bool.and_eq_true, beq_iff_eq]
  constructor
  · rintro ⟨h1, h2, h3, h4, -⟩
    exact ⟨(@pyToLower_eq_letter 'r' 'R' c1 (by decide) (by decide) (by decide)).mp h1.symm,
      (@pyToLower_eq_letter 'a' 'A' c2 (by decide) (by decide) (by decide)).mp h2.symm,
      (@pyToLower_eq_letter 't' 'T' c3 (by decide) (by decide) (by decide)).mp h3.symm,
      (@pyToLower_eq_letter 'e' 'E' c4 (by decide) (by decide) (by decide)).mp h4.symm⟩
  · rintro ⟨h1, h2, h3, h4⟩
    exact ⟨((@pyToLower_eq_letter 'r' 'R' c1 (by decide) (by decide) (by decide)).mpr h1).symm,
      ((@pyToLower_eq_letter 'a' 'A' c2 (by decide) (by decide) (by decide)).mpr h2).symm,
      ((@pyToLower_eq_letter 't' 'T' c3 (by decide) (by decide) (by decide)).mpr h3).symm,
      ((@pyToLower_eq_letter 'e' 'E' c4 (by decide) (by decide) (by decide)).mpr h4).symm,
      by decide⟩

theorem rate_key_shape {seg : List Char}
    (hb : List.isPrefixOf ['r', 'a', 't', 'e', '='] (pyLower seg) = true) :
    ∃ c1 c2 c3 c4 v, seg = c1 :: c2 :: c3 :: c4 :: '=' :: v := by
  obtain ⟨t, ht⟩ := List.isPrefixOf_iff_prefix.mp hb
  rcases seg with _ | ⟨e1, _ | ⟨e2, _ | ⟨e3, _ | ⟨e4, _ | ⟨e5, rest⟩⟩⟩⟩⟩ <;>
    simp [pyLower] at ht
  obtain ⟨h1, h2, h3, h4, h5, -⟩ := ht
  refine ⟨e1, e2, e3, e4, rest, ?_⟩
  have : e5 = '=' :=
    (@pyToLower_eq_nonletter '=' e5 (by decide) (by decide)).mp h5.symm
  rw [this]

theorem audio_elif_eq (st : AudioParams) (seg : List Char) :
    (if List.isPrefixOf ['a', 'u', 'd', 'i', 'o', '/', 'L'] seg then
      match (afterFirst 'L' seg).bind pyInt? with
      | some b => { st with bits_per_sample := b }
      | none => st
    else st) = audioRefine st seg := by
  by_cases hp : List.isPrefixOf ['a', 'u', 'd', 'i', 'o', '/', 'L'] seg
  · obtain ⟨t, ht⟩ := List.isPrefixOf_iff_prefix.mp hp
    have hseg : seg = 'a' :: 'u' :: 'd' :: 'i' :: 'o' :: '/' :: 'L' :: t := by
      rw [← ht]; rfl
    subst hseg
    rw [if_pos hp]
    have ha : afterFirst 'L' ('a' :: 'u' :: 'd' :: 'i' :: 'o' :: '/' :: 'L' :: t) =
        some t := rfl
    rcases hv : pyInt? t with _ | b <;> simp [audioRefine, ha, hv]
  · rw [if_neg hp]
    unfold audioRefine
    split
    · exact absurd (by simp [List.isPrefixOf]) hp
    · rfl

theorem parseSegment_eq_specSegment (st : AudioParams) (raw : List Char) :
    parseSegment st raw = specSegment st raw := by
  unfold specSegment
  split
  · next c1 c2 c3 c4 v heq =>
    by_cases hcond : (c1 = 'r' ∨ c1 = 'R') ∧ (c2 = 'a' ∨ c2 = 'A') ∧
        (c3 = 't' ∨ c3 = 'T') ∧ (c4 = 'e' ∨ c4 = 'E')
    · rw [if_pos hcond]
      have hr : List.isPrefixOf ['r', 'a', 't', 'e', '='] (pyLower (pyStrip raw)) = true := by
        rw [heq]
        exact (rate_key_iff c1 c2 c3 c4 v).mpr hcond
      have ha : afterFirst '=' (pyStrip raw) = some v := by
        rw [heq]
        obtain ⟨h1, h2, h3, h4⟩ := hcond
        rcases h1 with rfl | rfl <;> rcases h2 with rfl | rfl <;>
          rcases h3 with rfl | rfl <;> rcases h4 with rfl | rfl <;> rfl
      rcases hv : pyInt? v with _ | r <;>
        simp [parseSegment, hr, ha, hv]
    · rw [if_neg hcond]
      have hr : List.isPrefixOf ['r', 'a', 't', 'e', '='] (pyLower (pyStrip raw)) = false := by
        cases hb : List.isPrefixOf ['r', 'a', 't', 'e', '='] (pyLower (pyStrip raw))
        · rfl
        · rw [heq] at hb
          exact absurd ((rate_key_iff c1 c2 c3 c4 v).mp hb) hcond
      have := audio_elif_eq st (pyStrip raw)
      simp only [parseSegment, hr, Bool.false_eq_true, if_false]
      exact this
  · next heqs =>
    have hr : List.isPrefixOf ['r', 'a', 't', 'e', '='] (pyLower (pyStrip raw)) = false := by
      cases hb : List.isPrefixOf ['r', 'a', 't', 'e', '='] (pyLower (pyStrip raw))
      · rfl
      · obtain ⟨c1, c2, c3, c4, v, hshape⟩ := rate_key_shape hb
        exact absurd hshape (heqs c1 c2 c3 c4 v)
    have := audio_elif_eq st (pyStrip raw)
    simp only [parseSegment, hr, Bool.false_eq_true, if_false]
    exact this

theorem parseSegment_cases (st : AudioParams) (seg : List Char) :
    parseSegment st seg = st ∨
    (∃ r, List.isPrefixOf ['r', 'a', 't', 'e', '='] (pyLower (pyStrip seg)) = true ∧
      (afterFirst '=' (pyStrip seg)).bind pyInt? = some r ∧
      parseSegment st seg = { st with rate := r }) ∨
    (∃ b, List.isPrefixOf ['a', 'u', 'd', 'i', 'o', '/', 'L'] (pyStrip seg) = true ∧
      (afterFirst 'L' (pyStrip seg)).bind pyInt? = some b ∧
      parseSegment st seg = { st with bits_per_sample := b }) := by
  by_cases h1 : List.isPrefixOf ['r', 'a', 't', 'e', '='] (pyLower (pyStrip seg))
  · rcases hv : (afterFirst '=' (pyStrip seg)).bind pyInt? with _ | r
    · left
      simp [parseSegment, h1, hv]
    · right; left
      refine ⟨r, h1, rfl, ?_⟩
      simp [parseSegment, h1, hv]
  · by_cases h2 : List.isPrefixOf ['a', 'u', 'd', 'i', 'o', '/', 'L'] (pyStrip seg)
    · rcases hv : (afterFirst 'L' (pyStrip seg)).bind pyInt? with _ | b
      · left
        simp [parseSegment, h1, h2, hv]
      · right; right
        refine ⟨b, h2, rfl, ?_⟩
        simp [parseSegment, h1, h2, hv]
    · left
      simp [parseSegment, h1, h2]

theorem foldl_parseSegment_origin :
    ∀ (segs : List (List Char)) (st : AudioParams),
      ((segs.foldl parseSegment st).bits_per_sample = st.bits_per_sample ∨
        ∃ seg ∈ segs,
          List.isPrefixOf ['a', 'u', 'd', 'i', 'o', '/', 'L'] (pyStrip seg) = true ∧
          (afterFirst 'L' (pyStrip seg)).bind pyInt? =
            some (segs.foldl parseSegment st).bits_per_sample) ∧
      ((segs.foldl parseSegment st).rate = st.rate ∨
        ∃ seg ∈ segs,
          List.isPrefixOf ['r', 'a', 't', 'e', '='] (pyLower (pyStrip seg)) = true ∧
          (afterFirst '=' (pyStrip seg)).bind pyInt? =
            some (segs.foldl parseSegment st).rate)
  | [], st => ⟨Or.inl rfl, Or.inl rfl⟩
  | seg :: t, st => by
      have ih := foldl_parseSegment_origin t (parseSegment st seg)
      simp only [List.foldl_cons]
      rcases parseSegment_cases st seg with h | ⟨r, hpre, hv, h⟩ | ⟨b, hpre, hv, h⟩
      · rw [h] at ih ⊢
        constructor
        · rcases ih.1 with hb | ⟨seg', hm, hc⟩
          · exact Or.inl hb
          · exact Or.inr ⟨seg', List.mem_cons_of_mem _ hm, hc⟩
        · rcases ih.2 with hb | ⟨seg', hm, hc⟩
          · exact Or.inl hb
          · exact Or.inr ⟨seg', List.mem_cons_of_mem _ hm, hc⟩
      · rw [h] at ih ⊢
        constructor
        · rcases ih.1 with hb | ⟨seg', hm, hc⟩
          · exact Or.inl hb
          · exact Or.inr ⟨seg', List.mem_cons_of_mem _ hm, hc⟩
        · rcases ih.2 with hb | ⟨seg', hm, hc⟩
          · exact Or.inr ⟨seg, List.mem_cons_self _ _,
              hpre, hv.trans (congrArg some hb.symm)⟩
          · exact Or.inr ⟨seg', List.mem_cons_of_mem _ hm, hc⟩
      · rw [h] at ih ⊢
        constructor
        · rcases ih.1 with hb | ⟨seg', hm, hc⟩
          · exact Or.inr ⟨seg, List.mem_cons_self _ _,
              hpre, hv.trans (congrArg some hb.symm)⟩
          · exact Or.inr ⟨seg', List.mem_cons_of_mem _ hm, hc⟩
        · rcases ih.2 with hb | ⟨seg', hm, hc⟩
          · exact Or.inl hb
          · exact Or.inr ⟨seg', List.mem_cons_of_mem _ hm, hc⟩

/-! ## The claims -/

/-- C5 (confirmed): `parse_audio_mime_type` is a total function (every
fallible Python step - `int(...)`, `split(...)[1]` - is modelled by an
`Option` whose `none` the `except` clause maps back to the unchanged
state), and each returned field is either its default (16 bits per sample,
24000 Hz) or was produced by a well-formed field of the input: an
`audio/L<int>` segment for bits per sample, a case-insensitive
`rate=<int>` segment for the sample rate.  Malformed segments never
override a default. -/
theorem parser_total_default_or_wellformed (s : String) :
    ((parse_audio_mime_type s).bits_per_sample = 16 ∨
      ∃ seg ∈ pySplit ';' s.toList,
        List.isPrefixOf ['a', 'u', 'd', 'i', 'o', '/', 'L'] (pyStrip seg) = true ∧
        (afterFirst 'L' (pyStrip seg)).bind pyInt? =
          some (parse_audio_mime_type s).bits_per_sample) ∧
    ((parse_audio_mime_type s).rate = 24000 ∨
      ∃ seg ∈ pySplit ';' s.toList,
        List.isPrefixOf ['r', 'a', 't', 'e', '='] (pyLower (pyStrip seg)) = true ∧
        (afterFirst '=' (pyStrip seg)).bind pyInt? =
          some (parse_audio_mime_type s).rate) :=
  foldl_parseSegment_origin (pySplit ';' s.toList) ⟨16, 24000⟩

/-- C6 (confirmed): the parser splits on semicolons and folds the trimmed
segments from the defaults; each segment acts exactly as the
specification's per-segment rule `specSegment` describes - a
`<rate-key>=<value>` segment with the four key letters in either case
overrides the rate when the value parses as an integer and is skipped
otherwise, a segment starting with the literal `audio/L` overrides the bit
depth when the substring after `L` parses as an integer, and everything
else is ignored - with the five concrete outcomes the specification
lists. -/
theorem mime_parser_segment_rules :
    (∀ (st : AudioParams) (raw : List Char), parseSegment st raw = specSegment st raw) ∧
    (∀ s : String, parse_audio_mime_type s =
      (pySplit ';' s.toList).foldl specSegment ⟨16, 24000⟩) ∧
    parse_audio_mime_type "audio/L16;rate=24000" = ⟨16, 24000⟩ ∧
    parse_audio_mime_type "audio/L24;rate=48000" = ⟨24, 48000⟩ ∧
    parse_audio_mime_type "" = ⟨16, 24000⟩ ∧
    parse_audio_mime_type "garbage;nonsense=xyz" = ⟨16, 24000⟩ ∧
    parse_audio_mime_type "rate=notanumber" = ⟨16, 24000⟩ := by
  refine ⟨parseSegment_eq_specSegment, fun s => ?_,
    by decide, by decide, by decide, by decide, by decide⟩
  unfold parse_audio_mime_type
  exact List.foldl_ext parseSegment specSegment ⟨16, 24000⟩
    (fun acc seg _ => parseSegment_eq_specSegment acc seg)

/-- C1 (code_bug): the claim says chunks collected during a failed attempt
are discarded before the retry, but `all_audio_chunks` is initialised once,
BEFORE the retry loop (src/app.py line 332), so they are kept.  At the
failing input `behCarryOver` - attempt 0 yields payload `b"\x01"` then
raises, attempt 1 yields `b"\x02"` and succeeds - the collector ends with
both chunks, and the final WAV payload is `b"\x01\x02"`, not `b"\x02"`:
the byte collected during the failed attempt appears in the returned
audio. -/
theorem failed_attempt_chunks_kept :
    (runLoop behCarryOver).state.all_audio_chunks = [[1], [2]] ∧
    (runLoop behCarryOver).state.all_audio_chunks ≠ [[2]] ∧
    ((generate_podcast_audio (fun _ => none) behCarryOver).result.toOption.map
      (fun pr => pr.1.drop 44)) = some [1, 2] := by
  refine ⟨by decide, by decide, by decide⟩

/-- C3 (confirmed): when attempt `k` is the first whose stream completes
without a transport error, the loop stops after exactly `k + 1` attempts
(the zero-chunk condition is never retried), and if no payload-bearing
chunk was collected across all attempts the generation fails with the
empty-audio error and `convert_to_wav` is never invoked. -/
theorem empty_stream_is_terminal (guessExt : String → Option String)
    (behaviors : Nat → Attempt) (k : Nat) (hk : k < MAX_RETRIES)
    (hfail : ∀ j, j < k → ((behaviors j).err).isSome)
    (hok : (behaviors k).err = none) :
    (runLoop behaviors).attemptsMade = k + 1 ∧
    (runLoop behaviors).failure = none ∧
    ((runLoop behaviors).state.all_audio_chunks = [] →
      (generate_podcast_audio guessExt behaviors).result =
        .error (.emptyAudio "No audio was generated. Please try again with a different topic.") ∧
      (generate_podcast_audio guessExt behaviors).encoderInvoked = false) := by
  have main : (runLoop behaviors).attemptsMade = k + 1 ∧ (runLoop behaviors).failure = none := by
    match k, hk with
    | 0, _ =>
        have e : runLoop behaviors =
            ⟨(behaviors 0).chunks.foldl processChunk ⟨[], none⟩, 0 + 1, [], none⟩ := by
          show runLoopAux behaviors (2 + 1) 0 ⟨[], none⟩ [] = _
          exact runLoopAux_ok hok
        rw [e]
        exact ⟨rfl, rfl⟩
    | 1, _ =>
        obtain ⟨m0, h0⟩ := Option.isSome_iff_exists.mp (hfail 0 (by omega))
        have e : runLoop behaviors =
            ⟨(behaviors 1).chunks.foldl processChunk
                ((behaviors 0).chunks.foldl processChunk ⟨[], none⟩), 1 + 1,
              [] ++ [RETRY_DELAY], none⟩ := by
          show runLoopAux behaviors (1 + 1 + 1) 0 ⟨[], none⟩ [] = _
          rw [runLoopAux_err h0 (by decide)]
          exact runLoopAux_ok hok
        rw [e]
        exact ⟨rfl, rfl⟩
    | 2, _ =>
        obtain ⟨m0, h0⟩ := Option.isSome_iff_exists.mp (hfail 0 (by omega))
        obtain ⟨m1, h1⟩ := Option.isSome_iff_exists.mp (hfail 1 (by omega))
        have e : runLoop behaviors =
            ⟨(behaviors 2).chunks.foldl processChunk
                ((behaviors 1).chunks.foldl processChunk
                  ((behaviors 0).chunks.foldl processChunk ⟨[], none⟩)), 2 + 1,
              [] ++ [RETRY_DELAY] ++ [RETRY_DELAY], none⟩ := by
          show runLoopAux behaviors (0 + 1 + 1 + 1) 0 ⟨[], none⟩ [] = _
          rw [runLoopAux_err h0 (by decide), runLoopAux_err h1 (by decide)]
          exact runLoopAux_ok hok
        rw [e]
        exact ⟨rfl, rfl⟩
  refine ⟨main.1, main.2, fun hemp => ?_⟩
  exact finishGeneration_empty main.2 hemp

/-- Witness for the empty-stream claim: the first attempt raises, the
second completes with no payload-bearing chunks; two attempts are made,
the failure is the empty-audio error, and the encoder is never invoked. -/
theorem empty_stream_is_terminal_witness :
    (runLoop behEmpty).attemptsMade = 2 ∧
    (generate_podcast_audio (fun _ => none) behEmpty).result =
      .error (.emptyAudio "No audio was generated. Please try again with a different topic.") ∧
    (generate_podcast_audio (fun _ => none) behEmpty).encoderInvoked = false := by
  have h := empty_stream_is_terminal (fun _ => none) behEmpty 1 (by decide)
    (fun j hj => by interval_cases j; decide) (by decide)
  exact ⟨h.1, (h.2.2 (by decide)).1, (h.2.2 (by decide)).2⟩

/-- C4 (confirmed): a streaming collaborator that raises a transport error
on every attempt causes exactly `MAX_RETRIES = 3` attempts with a fixed
`RETRY_DELAY = 2` second sleep between consecutive attempts (two sleeps,
no exponential growth), after which the loop raises a wrapped failure
naming the attempt count and carrying the last underlying error's
description. -/
theorem retry_exhaustion (guessExt : String → Option String)
    (behaviors : Nat → Attempt) (m0 m1 m2 : String)
    (h0 : (behaviors 0).err = some m0)
    (h1 : (behaviors 1).err = some m1)
    (h2 : (behaviors 2).err = some m2) :
    MAX_RETRIES = 3 ∧ RETRY_DELAY = 2 ∧
    (runLoop behaviors).attemptsMade = 3 ∧
    (runLoop behaviors).delays = [2, 2] ∧
    (runLoop behaviors).failure =
      some ("Failed to generate audio after 3 attempts: " ++ m2) ∧
    (generate_podcast_audio guessExt behaviors).result =
      .error (.generationFailed ("Failed to generate audio after 3 attempts: " ++ m2)) := by
  have emsg : ("Failed to generate audio after " ++ toString MAX_RETRIES ++
      " attempts: " ++ m2) = "Failed to generate audio after 3 attempts: " ++ m2 :=
    congrArg (fun s => s ++ m2)
      (by decide : ("Failed to generate audio after " ++ toString MAX_RETRIES ++
        " attempts: ") = "Failed to generate audio after 3 attempts: ")
  have e : runLoop behaviors =
      ⟨(behaviors 2).chunks.foldl processChunk
          ((behaviors 1).chunks.foldl processChunk
            ((behaviors 0).chunks.foldl processChunk ⟨[], none⟩)), 2 + 1,
        [] ++ [RETRY_DELAY] ++ [RETRY_DELAY],
        some ("Failed to generate audio after " ++ toString MAX_RETRIES ++
          " attempts: " ++ m2)⟩ := by
    show runLoopAux behaviors (0 + 1 + 1 + 1) 0 ⟨[], none⟩ [] = _
    rw [runLoopAux_err h0 (by decide), runLoopAux_err h1 (by decide)]
    exact runLoopAux_err_last h2 (by decide)
  refine ⟨rfl, rfl, ?_, ?_, ?_, ?_⟩
  · rw [e]
  · rw [e]; rfl
  · rw [e]; simp [emsg]
  · show (finishGeneration guessExt (runLoop behaviors)).result = _
    have hf : (runLoop behaviors).failure =
        some ("Failed to generate audio after 3 attempts: " ++ m2) := by
      rw [e]; simp [emsg]
    rw [finishGeneration_failed hf]

/-- Witness for the retry-exhaustion claim, at a collaborator that always
raises with message `"boom"`. -/
theorem retry_exhaustion_witness :
    (runLoop behAlwaysFail).attemptsMade = 3 ∧
    (runLoop behAlwaysFail).delays = [2, 2] ∧
    (generate_podcast_audio (fun _ => none) behAlwaysFail).result =
      .error (.generationFailed ("Failed to generate audio after 3 attempts: " ++ "boom")) := by
  have h := retry_exhaustion (fun _ => none) behAlwaysFail "boom" "boom" "boom" rfl rfl rfl
  exact ⟨h.2.2.1, h.2.2.2.1, h.2.2.2.2.2⟩

/-- C9 (confirmed): when the loop succeeded but no chunk carried a MIME
type, the file extension defaults to `".wav"` and the payload is
WAV-encoded with the default MIME string `"audio/L16;rate=24000"`, whose
parsed parameters are 16 bits per sample at 24000 Hz (channel count is
fixed at 1 by `convert_to_wav` itself). -/
theorem default_mime_when_none_recorded (guessExt : String → Option String)
    (lr : LoopResult) (hf : lr.failure = none) (hm : lr.state.mime_type = none)
    (hne : lr.state.all_audio_chunks ≠ []) :
    (finishGeneration guessExt lr).encoderInvoked = true ∧
    (∀ wav, convert_to_wav (combineChunks lr.state.all_audio_chunks) "audio/L16;rate=24000" =
        some wav →
      (finishGeneration guessExt lr).result = .ok (wav, ".wav")) ∧
    parse_audio_mime_type "audio/L16;rate=24000" = ⟨16, 24000⟩ := by
  have hpe : pickExtension guessExt lr.state.mime_type = none := by rw [hm]; rfl
  have hem : effectiveMime lr.state.mime_type = "audio/L16;rate=24000" := by rw [hm]; rfl
  refine ⟨?_, ?_, by decide⟩
  · rcases hc : convert_to_wav (combineChunks lr.state.all_audio_chunks)
        (effectiveMime lr.state.mime_type) with _ | wav
    · rw [finishGeneration_ok hf, finishSuccess_encode_failed hne hpe hc]
    · rw [finishGeneration_ok hf, finishSuccess_encode_ok hne hpe hc]
  · intro wav hw
    rw [finishGeneration_ok hf, finishSuccess_encode_ok hne hpe (hem ▸ hw)]

/-- Witness for the default-MIME claim: a single collected chunk `b"\x05"`
with no recorded MIME type is WAV-encoded with the default parameters and
saved with extension `".wav"`. -/
theorem default_mime_when_none_recorded_witness :
    (finishGeneration (fun _ => none) ⟨⟨[[5]], none⟩, 1, [], none⟩).encoderInvoked = true ∧
    (finishGeneration (fun _ => none) ⟨⟨[[5]], none⟩, 1, [], none⟩).result =
      .ok (wavBytes 16 24000 [5], ".wav") := by
  have h := default_mime_when_none_recorded (fun _ => none)
    ⟨⟨[[5]], none⟩, 1, [], none⟩ rfl rfl (by decide)
  exact ⟨h.1, h.2.1 (wavBytes 16 24000 [5]) (by decide)⟩

/-- C10 (confirmed): the packing step of `convert_to_wav` succeeds exactly
when 36 + dataSize, sampleRateHz and byteRate fit an unsigned 32-bit
integer and bitsPerSample and blockAlign fit an unsigned 16-bit integer,
all non-negative; under these bounds the result is a buffer of exactly
44 + payload-length bytes, and outside them the packing step fails
(`struct.error`), so totality holds only under these bounds. -/
theorem encoder_succeeds_iff_fields_fit (payload : List Nat) (mime : String) :
    ((convert_to_wav payload mime).isSome ↔
      (0 ≤ (parse_audio_mime_type mime).bits_per_sample ∧
       (parse_audio_mime_type mime).bits_per_sample < 65536 ∧
       0 ≤ Int.fdiv (parse_audio_mime_type mime).bits_per_sample 8 ∧
       Int.fdiv (parse_audio_mime_type mime).bits_per_sample 8 < 65536 ∧
       0 ≤ (parse_audio_mime_type mime).rate ∧
       (parse_audio_mime_type mime).rate < 4294967296 ∧
       0 ≤ (parse_audio_mime_type mime).rate *
         Int.fdiv (parse_audio_mime_type mime).bits_per_sample 8 ∧
       (parse_audio_mime_type mime).rate *
         Int.fdiv (parse_audio_mime_type mime).bits_per_sample 8 < 4294967296 ∧
       36 + (payload.length : Int) < 4294967296)) ∧
    (∀ buf, convert_to_wav payload mime = some buf → buf.length = 44 + payload.length) :=
  ⟨convert_to_wav_isSome_iff rfl payload,
    fun _ h => (convert_to_wav_some_shape h).1⟩

/-- Witness for the encoder-bounds claim: on a 2-byte payload with the
default MIME string the encoder succeeds and returns 46 bytes. -/
theorem encoder_succeeds_iff_fields_fit_witness :
    (convert_to_wav [0, 1] "audio/L16;rate=24000").isSome = true ∧
    ((convert_to_wav [0, 1] "audio/L16;rate=24000").getD []).length = 46 := by
  have h := encoder_succeeds_iff_fields_fit [0, 1] "audio/L16;rate=24000"
  have hs : (convert_to_wav [0, 1] "audio/L16;rate=24000").isSome = true :=
    h.1.mpr (by decide)
  obtain ⟨buf, hb⟩ := Option.isSome_iff_exists.mp hs
  refine ⟨hs, ?_⟩
  rw [hb]
  simpa using h.2 buf hb

/-- C7 (confirmed): for a non-empty list of collected chunks, combining
them as the collector does and WAV-encoding yields a buffer whose payload
region - the bytes after the 44-byte header - is exactly the concatenation
of the chunks in arrival order, byte for byte. -/
theorem payload_region_is_exact_concat (chunks : List (List Nat)) (mime : String)
    (bits rate : Int) (_hne : chunks ≠ [])
    (hparse : parse_audio_mime_type mime = ⟨bits, rate⟩)
    (hb0 : 0 ≤ bits) (hb1 : bits < 65536)
    (hr0 : 0 ≤ rate) (hr1 : rate < 4294967296)
    (hbr : rate * Int.fdiv bits 8 < 4294967296)
    (hlen : 36 + ((combineChunks chunks).length : Int) < 4294967296) :
    ∃ buf, convert_to_wav (combineChunks chunks) mime = some buf ∧
      buf.drop 44 = chunks.flatten ∧
      buf.drop 44 = combineChunks chunks := by
  have hc := convert_to_wav_eq_some hparse hb0 hb1 hr0 hr1 hbr hlen
  have hd := (convert_to_wav_some_shape hc).2
  exact ⟨wavBytes bits rate (combineChunks chunks), hc,
    by rw [hd, combineChunks_eq_flatten], hd⟩

/-- Witness for the payload-region claim at chunks `[b"\x01", b"\x02\x03"]`
and the default MIME string. -/
theorem payload_region_is_exact_concat_witness :
    ∃ buf, convert_to_wav (combineChunks [[1], [2, 3]]) "audio/L16;rate=24000" = some buf ∧
      buf.drop 44 = [1, 2, 3] := by
  obtain ⟨buf, hc, hflat, _⟩ := payload_region_is_exact_concat [[1], [2, 3]]
    "audio/L16;rate=24000" 16 24000 (by decide) (by decide)
    (by norm_num) (by norm_num) (by norm_num) (by norm_num) (by decide) (by decide)
  exact ⟨buf, hc, by rw [hflat]; rfl⟩

/-- C2 counterexample: the claim quantifies over EVERY parsed
AudioMimeType, but at the parsed MIME type of
`"audio/L16;rate=4294967296"` (sample rate one past the uint32 range)
Python's `struct.pack` raises `struct.error`, so `convert_to_wav` returns
no buffer at all. -/
theorem wav_header_out_of_range_fails :
    convert_to_wav [] "audio/L16;rate=4294967296" = none ∧
    parse_audio_mime_type "audio/L16;rate=4294967296" = ⟨16, 4294967296⟩ := by
  refine ⟨by decide, by decide⟩

/-- C2 (corrected): for every payload and parsed AudioMimeType whose
derived header fields are within their unsigned ranges, `convert_to_wav`
returns exactly 44 header bytes followed by the payload, all multi-byte
integers little-endian, in the order RIFF, riffChunkSize = 36 + dataSize,
WAVE, "fmt ", 16, format 1, channels 1, sampleRateHz, byteRate,
blockAlign, bitsPerSample, "data", dataSize; and re-parsing each header
field from the produced buffer returns exactly the value used to
construct it. -/
theorem wav_header_layout_roundtrip (payload : List Nat) (mime : String)
    (bits rate : Int)
    (hparse : parse_audio_mime_type mime = ⟨bits, rate⟩)
    (hb0 : 0 ≤ bits) (hb1 : bits < 65536)
    (hr0 : 0 ≤ rate) (hr1 : rate < 4294967296)
    (hbr : rate * Int.fdiv bits 8 < 4294967296)
    (hlen : 36 + (payload.length : Int) < 4294967296) :
    ∃ buf, convert_to_wav payload mime = some buf ∧
      buf = wavBytes bits rate payload ∧
      buf.length = 44 + payload.length ∧
      buf.take 4 = [82, 73, 70, 70] ∧
      readU32 buf 4 = 36 + payload.length ∧
      (buf.drop 8).take 4 = [87, 65, 86, 69] ∧
      (buf.drop 12).take 4 = [102, 109, 116, 32] ∧
      readU32 buf 16 = 16 ∧
      readU16 buf 20 = 1 ∧
      readU16 buf 22 = 1 ∧
      readU32 buf 24 = rate.toNat ∧
      readU32 buf 28 = (rate * Int.fdiv bits 8).toNat ∧
      readU16 buf 32 = (Int.fdiv bits 8).toNat ∧
      readU16 buf 34 = bits.toNat ∧
      (buf.drop 36).take 4 = [100, 97, 116, 97] ∧
      readU32 buf 40 = payload.length ∧
      buf.drop 44 = payload := by
  have hfd : Int.fdiv bits 8 = bits / 8 := Int.fdiv_eq_ediv _ (by norm_num)
  have hc := convert_to_wav_eq_some hparse hb0 hb1 hr0 hr1 hbr hlen
  have hshape := convert_to_wav_some_shape hc
  refine ⟨wavBytes bits rate payload, hc, rfl, hshape.1,
    wavBytes_read_riff bits rate payload, ?_,
    wavBytes_read_wave bits rate payload, wavBytes_read_fmt bits rate payload,
    wavBytes_readU32_fmtSize bits rate payload, wavBytes_readU16_fmtTag bits rate payload,
    wavBytes_readU16_channels bits rate payload, ?_, ?_, ?_, ?_,
    wavBytes_read_dataTag bits rate payload, ?_, hshape.2⟩
  · exact wavBytes_readU32_chunkSize bits rate payload (by omega)
  · exact wavBytes_readU32_rate bits rate payload (by omega)
  · exact wavBytes_readU32_byteRate bits rate payload (by omega)
  · exact wavBytes_readU16_blockAlign bits rate payload (by omega)
  · exact wavBytes_readU16_bits bits rate payload (by omega)
  · exact wavBytes_readU32_dataSize bits rate payload (by omega)

/-- C8 (confirmed): once a MIME type has been recorded, processing any
further chunk leaves it unchanged, even when the chunk carries a different
MIME type; consequently, folding a whole chunk stream from the initial
state records exactly the MIME type of the first payload-bearing chunk
that carried one. -/
theorem mime_type_first_chunk_wins :
    (∀ (st : CollectState) (c : StreamChunk) (m : String),
      st.mime_type = some m → (processChunk st c).mime_type = some m) ∧
    (∀ (chunks : List StreamChunk) (l : List (List Nat)),
      (chunks.foldl processChunk ⟨l, none⟩).mime_type = firstCarriedMime chunks) :=
  ⟨fun _ _ _ h => processChunk_mime_some h,
    fun chunks l => foldl_processChunk_mime_none chunks l⟩

/-- Witness for the first-chunk-wins claim: a recorded MIME type survives
a later chunk carrying a different one, and on a concrete stream the
recorded MIME type is the first carried one. -/
theorem mime_type_first_chunk_wins_witness :
    (processChunk ⟨[[1]], some "audio/L16;rate=24000"⟩
      (some ⟨[2], some "audio/mpeg"⟩)).mime_type = some "audio/L16;rate=24000" ∧
    (([some ⟨[1], none⟩, some ⟨[2], some "audio/L16;rate=24000"⟩,
        some ⟨[3], some "audio/mpeg"⟩] : List StreamChunk).foldl
      processChunk ⟨[], none⟩).mime_type = some "audio/L16;rate=24000" := by
  constructor
  · exact mime_type_first_chunk_wins.1 _ _ _ rfl
  · rw [mime_type_first_chunk_wins.2]
    decide

/-- Witness for the WAV layout claim at the specification's example:
16 bits per sample, 24000 Hz, payload of 48000 zero bytes - blockAlign 2,
byteRate 48000, dataSize 48000, riffChunkSize 48036, total length
48044. -/
theorem wav_header_layout_roundtrip_witness :
    ∃ buf, convert_to_wav (List.replicate 48000 0) "audio/L16;rate=24000" = some buf ∧
      buf.length = 48044 ∧
      readU32 buf 4 = 48036 ∧
      readU32 buf 24 = 24000 ∧
      readU32 buf 28 = 48000 ∧
      readU16 buf 32 = 2 ∧
      readU16 buf 34 = 16 ∧
      readU32 buf 40 = 48000 := by
  have hrep := List.length_replicate 48000 (0 : Nat)
  obtain ⟨buf, hc, _, hlen, _, hcs, _, _, _, _, _, hrate, hbr, hba, hbits, _, hds, _⟩ :=
    wav_header_layout_roundtrip (List.replicate 48000 0) "audio/L16;rate=24000" 16 24000
      (by decide) (by norm_num) (by norm_num) (by norm_num) (by norm_num) (by decide)
      (by omega)
  refine ⟨buf, hc, ?_, ?_, ?_, ?_, ?_, ?_, ?_⟩
  · rw [hlen]; omega
  · rw [hcs]; omega
  · rw [hrate]; decide
  · rw [hbr]; decide
  · rw [hba]; decide
  · rw [hbits]; decide
  · rw [hds]; omega
